import Mathlib

/-!
Verification of the secret-resolution core of the Vaultwarden-API proxy
(Go sources under internal/vaultwarden): value extraction, the API-list
lookup, the TTL cache, the token authority, the CLI variant with its
name validation, the dual-mode fetch orchestration, the bootstrap login
loop, and the lock discipline of the token refresh.  All definitions are
shallow embeddings of the Go code; time instants are integers (seconds),
upstream I/O is an explicit environment of oracles, and executed
upstream calls are returned as an explicit trace.
-/

namespace Vaultwarden

/-- Typed failures of the core, mirroring the distinct `fmt.Errorf` sites. -/
inductive VwError where
  | emptyName
  | invalidNameLength
  | invalidNameChar
  | authFailure (status : Int)
  | transport (msg : String)
  | upstreamStatus (status : Int)
  | secretNotFound (name : String)
  | noValue
  | cliError (msg : String)
  | rateLimited (msg : String)
  | loginFailed (msg : String)
  deriving Repr, DecidableEq

/-- The `login` sub-record of a cipher (`CipherResponse.Data[i].Login`). -/
structure LoginData where
  username : String
  password : String
  uris : List String
  deriving Repr, DecidableEq

/-- A custom field of a cipher (`CipherResponse.Data[i].Fields[j]`). -/
structure CustomField where
  name : String
  value : String
  ftype : Int
  deriving Repr, DecidableEq

/-- One upstream cipher record (`CipherResponse.Data[i]` in client.go).
`login = none` models a JSON `login` member that is absent (`*struct` nil). -/
structure Cipher where
  id : String
  ctype : Int
  name : String
  login : Option LoginData
  notes : String
  fields : List CustomField
  deriving Repr, DecidableEq

/-- The field scan of `extractSecretValue` (client.go lines 251-255):
first field whose name is exactly "value" or "secret". -/
def findNamedField : List CustomField → Option String
  | [] => none
  | f :: rest =>
      if f.name = "value" ∨ f.name = "secret" then some f.value
      else findNamedField rest

/-- Continuation of `extractSecretValue` after the login branch
(client.go lines 246-262). -/
def extractAfterLogin (c : Cipher) : Except VwError String :=
  if c.ctype = 2 ∧ c.notes ≠ "" then .ok c.notes
  else
    match findNamedField c.fields with
    | some v => .ok v
    | none => if c.notes ≠ "" then .ok c.notes else .error .noValue

/-- `Client.extractSecretValue` (client.go lines 219-263): login password
first (type 1, non-nil login, non-empty password), then secure-note notes
(type 2), then the named custom fields, then notes, else failure. -/
def extractSecretValue (c : Cipher) : Except VwError String :=
  match c.login with
  | some l =>
      if c.ctype = 1 ∧ l.password ≠ "" then .ok l.password
      else extractAfterLogin c
  | none => extractAfterLogin c

/-- The password of the cipher's login sub-record, empty when absent. -/
def loginPassword (c : Cipher) : String :=
  (c.login.map LoginData.password).getD ""

/-- Scan of the custom fields as the spec words it: first field named
exactly "value" or "secret" (case-sensitive), in order. -/
def specFieldScan : List CustomField → Option String
  | [] => none
  | f :: rest =>
      if f.name = "value" ∨ f.name = "secret" then some f.value
      else specFieldScan rest

/-- Value extraction as the specification words it: (1) login type with
non-empty password, (2) secure-note type with non-empty notes, (3) first
custom field named "value"/"secret", (4) non-empty notes, (5) failure. -/
def extractSecretValueSpec (c : Cipher) : Except VwError String :=
  if c.ctype = 1 ∧ loginPassword c ≠ "" then .ok (loginPassword c)
  else if c.ctype = 2 ∧ c.notes ≠ "" then .ok c.notes
  else
    match specFieldScan c.fields with
    | some v => .ok v
    | none => if c.notes ≠ "" then .ok c.notes else .error .noValue

/-- The scan of `fetchSecret` over the decoded cipher list
(client.go lines 208-215): first cipher whose name matches exactly,
else SecretNotFound. -/
def lookupCipher (name : String) : List Cipher → Except VwError String
  | [] => .error (.secretNotFound name)
  | c :: rest => if c.name = name then extractSecretValue c else lookupCipher name rest

/-- Outcome of running one external CLI command and parsing its output:
the command itself can fail, the parse can fail, or both succeed. -/
inductive CliRun (α : Type) where
  | cmdFailed
  | parseFailed
  | ok (a : α)
  deriving Repr, DecidableEq

/-- The `login` sub-record of a CLI item (client_cli.go `BitwardenItem`). -/
structure BWLogin where
  username : String
  password : String
  deriving Repr, DecidableEq

/-- A custom field of a CLI item. -/
structure BWField where
  name : String
  value : String
  deriving Repr, DecidableEq

/-- A CLI item (`BitwardenItem` in client_cli.go). -/
structure BWItem where
  id : String
  name : String
  itype : Int
  login : Option BWLogin
  notes : String
  fields : List BWField
  deriving Repr, DecidableEq

/-- Parsed body of a 200 response from the identity token endpoint
(`TokenResponse` in auth.go, the fields the code reads). -/
structure TokenResp where
  accessToken : String
  expiresIn : Int
  deriving Repr, DecidableEq

/-- The upstream world as oracles: outputs of the two CLI lookup
commands, the token-endpoint response, and the cipher-list response as
a function of the bearer header sent. -/
structure Env where
  cliGetItem : String → CliRun BWItem
  cliSearch : String → CliRun (List BWItem)
  tokenResp : Except VwError TokenResp
  apiCiphers : String → Except VwError (List Cipher)

/-- An external CLI command executed by `FetchSecretViaCLI`. -/
inductive CliCmd where
  | getItem (name : String)
  | searchItems (name : String)
  deriving Repr, DecidableEq

/-- The character allow-list of `FetchSecretViaCLI` (client_cli.go lines
34-41): ASCII letters, digits, `-`, `_`, `.`, `/`. -/
def isAllowedChar (ch : Char) : Bool :=
  ('a' ≤ ch && ch ≤ 'z') || ('A' ≤ ch && ch ≤ 'Z') || ('0' ≤ ch && ch ≤ '9') ||
  ch == '-' || ch == '_' || ch == '.' || ch == '/'

/-- The case-insensitive field scan of `extractValueFromItem`
(client_cli.go lines 89-94). -/
def findCliField : List BWField → Option String
  | [] => none
  | f :: rest =>
      if f.name.toLower = "value" ∨ f.name.toLower = "secret" ∨ f.name.toLower = "api_key"
      then some f.value
      else findCliField rest

/-- Continuation of `extractValueFromItem` after the login branch
(client_cli.go lines 89-104). -/
def extractItemAfterLogin (item : BWItem) : Except VwError String :=
  match findCliField item.fields with
  | some v => .ok v
  | none =>
      if item.notes ≠ "" then .ok item.notes
      else
        match item.fields with
        | [] => .error .noValue
        | f :: _ => .ok f.value

/-- `Client.extractValueFromItem` (client_cli.go lines 84-105). -/
def extractValueFromItem (item : BWItem) : Except VwError String :=
  match item.login with
  | some l => if l.password ≠ "" then .ok l.password else extractItemAfterLogin item
  | none => extractItemAfterLogin item

/-- `Client.FetchSecretViaCLI` (client_cli.go lines 29-82): validate the
name (byte length 1..255, allow-listed characters), then run
`bw get item`, falling back to `bw list items` with a search when the
command fails.  The second component is the list of external commands
actually executed. -/
def fetchSecretViaCLI (env : Env) (name : String) : Except VwError String × List CliCmd :=
  if name.utf8ByteSize = 0 ∨ 255 < name.utf8ByteSize then (.error .invalidNameLength, [])
  else if ¬ name.toList.all isAllowedChar then (.error .invalidNameChar, [])
  else
    match env.cliGetItem name with
    | .ok item => (extractValueFromItem item, [.getItem name])
    | .parseFailed => (.error (.cliError "failed to parse item"), [.getItem name])
    | .cmdFailed =>
        match env.cliSearch name with
        | .cmdFailed =>
            (.error (.cliError "failed to search for item"), [.getItem name, .searchItems name])
        | .parseFailed =>
            (.error (.cliError "failed to parse search results"), [.getItem name, .searchItems name])
        | .ok [] => (.error (.secretNotFound name), [.getItem name, .searchItems name])
        | .ok (item :: _) => (extractValueFromItem item, [.getItem name, .searchItems name])

/-- An environment whose upstream is entirely down. -/
def envDefault : Env where
  cliGetItem := fun _ => .cmdFailed
  cliSearch := fun _ => .cmdFailed
  tokenResp := .error (.transport "connection refused")
  apiCiphers := fun _ => .error (.upstreamStatus 500)

/-- One upstream call issued during a resolution. -/
inductive CallKind where
  | cli (cmd : CliCmd)
  | tokenExchange
  | apiList (bearer : String)
  deriving Repr, DecidableEq

/-- In-memory token state of `AuthManager` (auth.go lines 26-28).  The
zero value (empty token) is the freshly constructed manager. -/
structure AuthState where
  accessToken : String
  tokenExpiry : Int
  deriving Repr, DecidableEq

/-- Result of a token operation: outcome, updated state, upstream calls. -/
structure TokenResult where
  result : Except VwError String
  state : AuthState
  calls : List CallKind
  deriving Repr

/-- The validity check of auth.go lines 55 and 72:
`am.accessToken != "" && time.Now().Before(am.tokenExpiry)`. -/
def tokenValid (am : AuthState) (now : Int) : Prop :=
  am.accessToken ≠ "" ∧ now < am.tokenExpiry

instance (am : AuthState) (now : Int) : Decidable (tokenValid am now) := by
  unfold tokenValid
  infer_instance

/-- `AuthManager.refreshAccessToken` (auth.go lines 67-131): re-check
validity (double-checked locking), then exchange client credentials at
the identity endpoint and store
`expiry = now + (expiresIn - 300)` seconds. -/
def refreshAccessToken (env : Env) (am : AuthState) (now : Int) : TokenResult :=
  if tokenValid am now then ⟨.ok am.accessToken, am, []⟩
  else
    match env.tokenResp with
    | .error e => ⟨.error e, am, [.tokenExchange]⟩
    | .ok tr => ⟨.ok tr.accessToken, ⟨tr.accessToken, now + (tr.expiresIn - 300)⟩, [.tokenExchange]⟩

/-- `AuthManager.GetAccessToken` (auth.go lines 52-64). -/
def getAccessToken (env : Env) (am : AuthState) (now : Int) : TokenResult :=
  if tokenValid am now then ⟨.ok am.accessToken, am, []⟩
  else refreshAccessToken env am now

/-- One cache entry (`cacheItem` in client.go lines 33-36). -/
structure CacheItem where
  value : String
  expiresAt : Int
  deriving Repr, DecidableEq

/-- In-memory state of `secretCache` (client.go lines 26-31): the entry
map, the construction-time TTL, and the enabled flag. -/
structure SecretCache where
  items : String → Option CacheItem
  ttl : Int
  enabled : Bool

/-- `secretCache.get` (client.go lines 274-289): a present entry whose
expiry lies strictly before the read time is a miss. -/
def secretCache.get (sc : SecretCache) (now : Int) (key : String) : Option String :=
  match sc.items key with
  | none => none
  | some item => if item.expiresAt < now then none else some item.value

/-- `secretCache.set` (client.go lines 291-299): overwrite the entry
with expiry `now + ttl`. -/
def secretCache.set (sc : SecretCache) (now : Int) (key value : String) : SecretCache :=
  { sc with items := fun k => if k = key then some ⟨value, now + sc.ttl⟩ else sc.items k }

/-- `secretCache.clear` (client.go lines 301-306), the body of the
`ClearCache` administrative action. -/
def secretCache.clear (sc : SecretCache) : SecretCache :=
  { sc with items := fun _ => none }

/-- The cache as the constructors build it (client.go lines 65-69 and
95-99): empty, enabled exactly when the TTL is positive. -/
def newSecretCache (ttl : Int) : SecretCache :=
  { items := fun _ => none, ttl := ttl, enabled := decide (0 < ttl) }

/-- Construction-time authentication mode of the client: `authManager`
present (API credentials, `NewClientWithAuth`) or nil with the legacy
session token (`NewClient`). -/
inductive AuthMode where
  | api (am : AuthState)
  | legacy (token : String)
  deriving Repr, DecidableEq

/-- A `Client` (client.go lines 17-23): its mode and its cache. -/
structure Client where
  mode : AuthMode
  cache : SecretCache

/-- Result of `fetchSecret`: outcome, updated mode state, upstream calls. -/
structure FetchResult where
  result : Except VwError String
  mode : AuthMode
  calls : List CallKind
  deriving Repr

/-- The API section of `Client.fetchSecret` (client.go lines 158-215):
GET the cipher list with the bearer token, then scan for the name. -/
def apiLookup (env : Env) (bearer name : String) : Except VwError String :=
  match env.apiCiphers bearer with
  | .error e => .error e
  | .ok ciphers => lookupCipher name ciphers

/-- `Client.fetchSecret` (client.go lines 148-216): with a nil auth
manager (legacy mode) try the CLI first and on any CLI failure fall
through to the API section with the session token as bearer; with an
auth manager (API mode) obtain an access token and call the API
section. -/
def fetchSecret (env : Env) (mode : AuthMode) (now : Int) (name : String) : FetchResult :=
  match mode with
  | .legacy tk =>
      match fetchSecretViaCLI env name with
      | (.ok v, cmds) => ⟨.ok v, .legacy tk, cmds.map .cli⟩
      | (.error _, cmds) => ⟨apiLookup env tk name, .legacy tk, cmds.map .cli ++ [.apiList tk]⟩
  | .api am =>
      match getAccessToken env am now with
      | ⟨.error e, am2, calls⟩ => ⟨.error e, .api am2, calls⟩
      | ⟨.ok tok, am2, calls⟩ => ⟨apiLookup env tok name, .api am2, calls ++ [.apiList tok]⟩

/-- Result of `GetSecret`: outcome, updated client, number of
`fetchSecret` invocations (0 or 1), upstream calls. -/
structure ResolveResult where
  result : Except VwError String
  client : Client
  fetches : Nat
  calls : List CallKind

/-- The cache consultation of `GetSecret` (client.go lines 125-130). -/
def cacheLookup (c : Client) (now : Int) (name : String) : Option String :=
  if c.cache.enabled then secretCache.get c.cache now name else none

/-- `Client.GetSecret` (client.go lines 118-145): reject the empty name,
consult the cache, on a miss fetch upstream, and cache a successful
value when caching is enabled. -/
def getSecret (env : Env) (c : Client) (now : Int) (name : String) : ResolveResult :=
  if name = "" then ⟨.error .emptyName, c, 0, []⟩
  else
    match cacheLookup c now name with
    | some v => ⟨.ok v, c, 0, []⟩
    | none =>
        match fetchSecret env c.mode now name with
        | ⟨.error e, mode2, calls⟩ => ⟨.error e, ⟨mode2, c.cache⟩, 1, calls⟩
        | ⟨.ok v, mode2, calls⟩ =>
            ⟨.ok v,
             ⟨mode2, if c.cache.enabled then secretCache.set c.cache now name v else c.cache⟩,
             1, calls⟩

/-- Outcome of one `bw login --apikey` attempt during the bootstrap:
success (exit ok, or output containing "You are logged in!"), a
rate-limit response, or any other failure. -/
inductive LoginOutcome where
  | success
  | rateLimited (msg : String)
  | failed (msg : String)
  deriving Repr, DecidableEq

/-- The error recorded for a failed attempt (init.go lines 78-84). -/
def attemptError : LoginOutcome → Option VwError
  | .success => none
  | .rateLimited msg => some (.rateLimited msg)
  | .failed msg => some (.loginFailed msg)

/-- The retry loop of the bootstrap login (init.go lines 52-89), run
from attempt number `attempt` with `remaining` iterations left: the
final login error (none on success), the number of attempts executed,
and the backoff sleeps (seconds) taken before retries
(`attempt*attempt*5` before every attempt after the first). -/
def loginLoopAux (outcome : Nat → LoginOutcome) (curErr : Option VwError) :
    Nat → Nat → Option VwError × Nat × List Int
  | _, 0 => (curErr, 0, [])
  | attempt, remaining + 1 =>
      let sleeps : List Int := if 1 < attempt then [(attempt * attempt : Int) * 5] else []
      match outcome attempt with
      | .success => (none, 1, sleeps)
      | o =>
          let res := loginLoopAux outcome (attemptError o) (attempt + 1) remaining
          (res.1, res.2.1 + 1, sleeps ++ res.2.2)

/-- The bootstrap login with `maxRetries = 3` (init.go line 52). -/
def bootstrapLogin (outcome : Nat → LoginOutcome) : Option VwError × Nat × List Int :=
  loginLoopAux outcome none 1 3

/-- Events of a lock-discipline trace: acquiring and releasing the
component's mutex, performing an upstream network call, and writing the
guarded in-memory state. -/
inductive LockEvent where
  | lockAcquire
  | netCall
  | stateWrite
  | lockRelease
  deriving Repr, DecidableEq

/-- Event trace of `AuthManager.refreshAccessToken` (auth.go lines
67-131), read off the statement order: `mu.Lock()` at entry (line 68)
with `defer mu.Unlock()` (line 69) releasing at return; when the
double-check fails, the HTTP exchange `httpClient.Do` (line 105) and,
on success, the token and expiry writes (lines 124-126) all run before
the deferred unlock. -/
def refreshAccessTokenEvents (stillValid exchangeSucceeds : Bool) : List LockEvent :=
  if stillValid then [.lockAcquire, .lockRelease]
  else if exchangeSucceeds then [.lockAcquire, .netCall, .stateWrite, .lockRelease]
  else [.lockAcquire, .netCall, .lockRelease]

/-- Event trace of `secretCache.get` (client.go lines 274-289): lock,
read the map, unlock — no network call. -/
def cacheGetEvents : List LockEvent := [.lockAcquire, .lockRelease]

/-- Event trace of `secretCache.set` (client.go lines 291-299). -/
def cacheSetEvents : List LockEvent := [.lockAcquire, .stateWrite, .lockRelease]

/-- Event trace of `secretCache.clear` (client.go lines 301-306). -/
def cacheClearEvents : List LockEvent := [.lockAcquire, .stateWrite, .lockRelease]

/-- Whether some network call in the trace happens while the lock is
held; `held` is the lock state at the start of the trace. -/
def netUnderLock : List LockEvent → Bool → Bool
  | [], _ => false
  | .lockAcquire :: rest, _ => netUnderLock rest true
  | .lockRelease :: rest, _ => netUnderLock rest false
  | .netCall :: rest, held => held || netUnderLock rest held
  | .stateWrite :: rest, held => netUnderLock rest held

/-- The white-space class of Go's `unicode.IsSpace`, as trimmed by
`strings.TrimSpace`. -/
def isGoSpace (c : Char) : Bool :=
  c.toNat = 0x09 || c.toNat = 0x0A || c.toNat = 0x0B || c.toNat = 0x0C || c.toNat = 0x0D ||
  c.toNat = 0x20 || c.toNat = 0x85 || c.toNat = 0xA0 || c.toNat = 0x1680 ||
  (0x2000 ≤ c.toNat && c.toNat ≤ 0x200A) || c.toNat = 0x2028 || c.toNat = 0x2029 ||
  c.toNat = 0x202F || c.toNat = 0x205F || c.toNat = 0x3000

/-- `strings.TrimSpace`: drop white space from both ends. -/
def trimSpace (s : String) : String :=
  ⟨((s.toList.dropWhile isGoSpace).reverse.dropWhile isGoSpace).reverse⟩

/-- The session-token adoption of `NewClient` (client.go lines 75-80);
`sessionFile` is the contents of `/tmp/bw_session` when that file is
readable, `none` when absent or unreadable.  Only an empty
construction-time token is replaced, and `NewClient` has no error
path. -/
def newClientToken (token : String) (sessionFile : Option String) : String :=
  if token = "" then
    match sessionFile with
    | some contents => trimSpace contents
    | none => token
  else token

/-- A CLI item holding a login password, used as concrete test data. -/
def itemP : BWItem := ⟨"i1", "db", 1, some ⟨"u", "p4ss"⟩, "", []⟩

/-- An environment whose CLI `get item` succeeds with `itemP`. -/
def envHit : Env := { envDefault with cliGetItem := fun _ => .ok itemP }

/-- A pre-populated cache holding "db" with expiry 10 and TTL 60. -/
def cacheWithDb : SecretCache :=
  { items := fun k => if k = "db" then some ⟨"old", 10⟩ else none, ttl := 60, enabled := true }

/-- Attempt outcomes where the first login fails for a non-rate-limit
reason and the second succeeds. -/
def badThenOk : Nat → LoginOutcome :=
  fun n => if n = 1 then .failed "invalid api key" else .success

/-! ## Helper lemmas -/

theorem specFieldScan_eq_findNamedField (fs : List CustomField) :
    specFieldScan fs = findNamedField fs := by
  induction fs with
  | nil => rfl
  | cons f rest ih => simp [specFieldScan, findNamedField, ih]

theorem length_le_utf8ByteSize (s : String) : s.length ≤ s.utf8ByteSize := by
  rcases s with ⟨cs⟩
  simp only [String.length_mk, String.utf8ByteSize_mk]
  induction cs with
  | nil => simp
  | cons c rest ih =>
    have := c.utf8Size_pos
    simp only [List.length_cons, String.utf8Len_cons]
    omega

theorem ctrl_char_not_allowed (c : Char) (h : c.toNat < 32) : isAllowedChar c = false := by
  have ha : ¬ ('a' ≤ c) := fun hle => by
    have h97 : (97 : Nat) ≤ c.toNat := hle
    omega
  have hA : ¬ ('A' ≤ c) := fun hle => by
    have h65 : (65 : Nat) ≤ c.toNat := hle
    omega
  have h0 : ¬ ('0' ≤ c) := fun hle => by
    have h48 : (48 : Nat) ≤ c.toNat := hle
    omega
  have hd : c ≠ '-' := fun he => by subst he; exact absurd h (by decide)
  have hu : c ≠ '_' := fun he => by subst he; exact absurd h (by decide)
  have hp : c ≠ '.' := fun he => by subst he; exact absurd h (by decide)
  have hs : c ≠ '/' := fun he => by subst he; exact absurd h (by decide)
  simp [isAllowedChar, ha, hA, h0, hd, hu, hp, hs]

theorem secretCache.get_set_same (sc : SecretCache) (now t2 : Int) (key value : String)
    (h : t2 ≤ now + sc.ttl) :
    secretCache.get (secretCache.set sc now key value) t2 key = some value := by
  have hle : ¬ (now + sc.ttl < t2) := by omega
  simp [secretCache.get, secretCache.set, hle]

theorem fetchSecretViaCLI_cmds_cases (env : Env) (name : String) :
    (fetchSecretViaCLI env name).2 = [] ∨
    (fetchSecretViaCLI env name).2 = [.getItem name] ∨
    (fetchSecretViaCLI env name).2 = [.getItem name, .searchItems name] := by
  unfold fetchSecretViaCLI
  split
  · left; rfl
  · split
    · left; rfl
    · cases env.cliGetItem name with
      | ok item => right; left; rfl
      | parseFailed => right; left; rfl
      | cmdFailed =>
        cases env.cliSearch name with
        | cmdFailed => right; right; rfl
        | parseFailed => right; right; rfl
        | ok l => cases l <;> (right; right; rfl)

theorem getAccessToken_calls_cases (env : Env) (am : AuthState) (now : Int) :
    (getAccessToken env am now).calls = [] ∨
    (getAccessToken env am now).calls = [.tokenExchange] := by
  by_cases hv : tokenValid am now
  · left
    simp [getAccessToken, hv]
  · cases hresp : env.tokenResp with
    | error e =>
      right
      simp [getAccessToken, refreshAccessToken, hv, hresp]
    | ok tr =>
      right
      simp [getAccessToken, refreshAccessToken, hv, hresp]

/-! ## Claim theorems -/

/-- Claim C2: value extraction in the API variant follows exactly the
spec's five-step priority (login password, secure-note notes, first
custom field named "value"/"secret" case-sensitively, notes, failure);
in particular a secure-note with empty notes and no custom fields fails
with NoValueExtractable. -/
theorem claim_C2_extraction_priority :
    (∀ c : Cipher, extractSecretValue c = extractSecretValueSpec c) ∧
    (∀ c : Cipher, c.ctype = 2 → c.notes = "" → c.fields = [] →
      extractSecretValue c = .error .noValue) := by
  constructor
  · intro c
    rcases hc : c.login with _ | l
    · simp [extractSecretValue, extractSecretValueSpec, extractAfterLogin, loginPassword, hc,
        specFieldScan_eq_findNamedField]
    · by_cases h : c.ctype = 1 ∧ l.password ≠ ""
      · simp [extractSecretValue, extractSecretValueSpec, loginPassword, hc, h]
      · simp [extractSecretValue, extractSecretValueSpec, extractAfterLogin, loginPassword, hc, h,
          specFieldScan_eq_findNamedField]
  · intro c h2 hn hf
    rcases hc : c.login with _ | l <;>
      simp [extractSecretValue, extractAfterLogin, findNamedField, hc, h2, hn, hf]

/-- Witness for C2 at the secure-note cipher with empty notes and no
fields: extraction fails with NoValueExtractable. -/
theorem claim_C2_extraction_priority_witness :
    extractSecretValue ⟨"id1", 2, "note1", none, "", []⟩ = .error .noValue :=
  claim_C2_extraction_priority.2 ⟨"id1", 2, "note1", none, "", []⟩ rfl rfl rfl

/-- Claim C3: a successful exchange returning `expiresIn` stores expiry
`now + expiresIn - 300`, and the stored token is reused strictly before
that instant; with `expiresIn = 600` the token is reused at `now + 299`
with no upstream call and re-exchanged at `now + 301`. -/
theorem claim_C3_token_safety_margin (env : Env) (am : AuthState) (now : Int)
    (tok : String) (ei : Int)
    (hresp : env.tokenResp = .ok ⟨tok, ei⟩) (htok : tok ≠ "")
    (hstale : ¬ tokenValid am now) :
    (getAccessToken env am now).result = .ok tok ∧
    (getAccessToken env am now).state = ⟨tok, now + (ei - 300)⟩ ∧
    (getAccessToken env am now).calls = [.tokenExchange] ∧
    (ei = 600 →
      getAccessToken env ⟨tok, now + (ei - 300)⟩ (now + 299) =
        ⟨.ok tok, ⟨tok, now + (ei - 300)⟩, []⟩ ∧
      (getAccessToken env ⟨tok, now + (ei - 300)⟩ (now + 301)).calls = [.tokenExchange]) := by
  have hbase : getAccessToken env am now =
      ⟨.ok tok, ⟨tok, now + (ei - 300)⟩, [.tokenExchange]⟩ := by
    unfold getAccessToken refreshAccessToken
    rw [if_neg hstale, if_neg hstale, hresp]
  refine ⟨by rw [hbase], by rw [hbase], by rw [hbase], ?_⟩
  intro hei
  subst hei
  constructor
  · have hvalid : tokenValid ⟨tok, now + (600 - 300)⟩ (now + 299) :=
      ⟨htok, by show now + 299 < now + (600 - 300); omega⟩
    unfold getAccessToken
    rw [if_pos hvalid]
  · have hinvalid : ¬ tokenValid ⟨tok, now + (600 - 300)⟩ (now + 301) := by
      intro hv
      have hlt : now + 301 < now + (600 - 300 : Int) := hv.2
      omega
    unfold getAccessToken refreshAccessToken
    rw [if_neg hinvalid, if_neg hinvalid, hresp]

/-- Witness for C3 at a fresh manager and a 600-second token. -/
theorem claim_C3_token_safety_margin_witness :
    (getAccessToken { envDefault with tokenResp := .ok ⟨"T", 600⟩ } ⟨"", 0⟩ 0).result = .ok "T" ∧
    (getAccessToken { envDefault with tokenResp := .ok ⟨"T", 600⟩ } ⟨"", 0⟩ 0).state =
      ⟨"T", 0 + (600 - 300)⟩ ∧
    (getAccessToken { envDefault with tokenResp := .ok ⟨"T", 600⟩ } ⟨"", 0⟩ 0).calls =
      [.tokenExchange] ∧
    (600 = (600 : Int) →
      getAccessToken { envDefault with tokenResp := .ok ⟨"T", 600⟩ } ⟨"T", 0 + (600 - 300)⟩
          (0 + 299) = ⟨.ok "T", ⟨"T", 0 + (600 - 300)⟩, []⟩ ∧
      (getAccessToken { envDefault with tokenResp := .ok ⟨"T", 600⟩ } ⟨"T", 0 + (600 - 300)⟩
          (0 + 301)).calls = [.tokenExchange]) :=
  claim_C3_token_safety_margin { envDefault with tokenResp := .ok ⟨"T", 600⟩ } ⟨"", 0⟩ 0 "T" 600
    rfl (by decide) (by decide)

/-- Claim C5: the cipher-list scan selects the first entry (in response
order) whose name matches exactly, and when no entry matches it fails
with SecretNotFound — it never produces a value, in particular not an
empty string. -/
theorem claim_C5_first_match_or_not_found :
    (∀ (name : String) (cs : List Cipher),
      lookupCipher name cs =
        match cs.find? (fun c => c.name == name) with
        | some c => extractSecretValue c
        | none => .error (.secretNotFound name)) ∧
    (∀ (name : String) (cs : List Cipher),
      (∀ c ∈ cs, c.name ≠ name) →
        lookupCipher name cs = .error (.secretNotFound name) ∧
        ∀ v : String, lookupCipher name cs ≠ .ok v) := by
  have hfind : ∀ (name : String) (cs : List Cipher),
      lookupCipher name cs =
        match cs.find? (fun c => c.name == name) with
        | some c => extractSecretValue c
        | none => .error (.secretNotFound name) := by
    intro name cs
    induction cs with
    | nil => rfl
    | cons c rest ih =>
      by_cases h : c.name = name
      · simp [lookupCipher, h]
      · simp [lookupCipher, h, ih]
  refine ⟨hfind, ?_⟩
  intro name cs hnone
  have hfn : cs.find? (fun c => c.name == name) = none := by
    rw [List.find?_eq_none]
    intro c hmem
    simpa using hnone c hmem
  rw [hfind name cs, hfn]
  exact ⟨rfl, fun v h => by simp at h⟩

/-- Witness for C5 at a one-element list whose entry has a different
name: the lookup reports SecretNotFound. -/
theorem claim_C5_first_match_or_not_found_witness :
    lookupCipher "x" [⟨"id1", 1, "y", none, "", []⟩] = .error (.secretNotFound "x") :=
  (claim_C5_first_match_or_not_found.2 "x" [⟨"id1", 1, "y", none, "", []⟩]
    (by intro c hc; simp at hc; simp [hc])).1

/-- Claim C8: a name that is empty, longer than 255 characters, or
contains a character outside the allow-list is rejected by
`FetchSecretViaCLI` with an error and an empty command trace — no
external CLI process is ever invoked with it; every control character
is outside the allow-list. -/
theorem claim_C8_invalid_name_never_reaches_cli (env : Env) (name : String)
    (h : name = "" ∨ 255 < name.length ∨ ∃ c ∈ name.toList, isAllowedChar c = false) :
    ((∃ e, (fetchSecretViaCLI env name).1 = .error e) ∧ (fetchSecretViaCLI env name).2 = []) ∧
    ∀ c : Char, c.toNat < 32 → isAllowedChar c = false := by
  refine ⟨?_, ctrl_char_not_allowed⟩
  rcases h with h | h | h
  · subst h
    exact ⟨⟨.invalidNameLength, rfl⟩, rfl⟩
  · have hlen : 255 < name.utf8ByteSize := lt_of_lt_of_le h (length_le_utf8ByteSize name)
    simp only [fetchSecretViaCLI, if_pos (Or.inr hlen)]
    exact ⟨⟨.invalidNameLength, rfl⟩, trivial⟩
  · by_cases hb : name.utf8ByteSize = 0 ∨ 255 < name.utf8ByteSize
    · simp only [fetchSecretViaCLI, if_pos hb]
      exact ⟨⟨.invalidNameLength, rfl⟩, trivial⟩
    · have hall : ¬ name.toList.all isAllowedChar := by
        rcases h with ⟨c, hc, hbad⟩
        simp only [List.all_eq_true, not_forall]
        exact ⟨c, hc, by simp [hbad]⟩
      simp only [fetchSecretViaCLI, if_neg hb, if_pos hall]
      exact ⟨⟨.invalidNameChar, rfl⟩, trivial⟩

/-- Witness for C8 at the name containing a tab (a control character):
the call fails and executes no CLI command. -/
theorem claim_C8_invalid_name_never_reaches_cli_witness :
    (∃ e, (fetchSecretViaCLI envDefault "a\tb").1 = .error e) ∧
    (fetchSecretViaCLI envDefault "a\tb").2 = [] :=
  (claim_C8_invalid_name_never_reaches_cli envDefault "a\tb"
    (Or.inr (Or.inr ⟨'\t', by decide, by decide⟩))).1

/-- Claim C1: for a non-empty name whose upstream fetch succeeds,
resolving it and then resolving it again no later than TTL seconds
after the first call answers the second call from the cache: one
`fetchSecret` invocation in total and two equal `.ok` values. -/
theorem claim_C1_cache_hit_within_ttl (env : Env) (c : Client) (t t2 : Int)
    (name v : String) (mode2 : AuthMode) (calls : List CallKind)
    (hname : name ≠ "")
    (hen : c.cache.enabled = true)
    (hmiss : secretCache.get c.cache t name = none)
    (hfetch : fetchSecret env c.mode t name = ⟨.ok v, mode2, calls⟩)
    (ht : t ≤ t2) (ht2 : t2 ≤ t + c.cache.ttl) :
    (getSecret env c t name).result = .ok v ∧
    (getSecret env c t name).fetches = 1 ∧
    (getSecret env (getSecret env c t name).client t2 name).result = .ok v ∧
    (getSecret env (getSecret env c t name).client t2 name).fetches = 0 := by
  have hcl : cacheLookup c t name = none := by
    simp [cacheLookup, hen, hmiss]
  have h1 : getSecret env c t name =
      ⟨.ok v, ⟨mode2, secretCache.set c.cache t name v⟩, 1, calls⟩ := by
    simp [getSecret, hname, hcl, hfetch, hen]
  have hget2 : secretCache.get (secretCache.set c.cache t name v) t2 name = some v :=
    secretCache.get_set_same c.cache t t2 name v ht2
  have hcl2 : cacheLookup ⟨mode2, secretCache.set c.cache t name v⟩ t2 name = some v := by
    have hen2 : (secretCache.set c.cache t name v).enabled = true := hen
    simp [cacheLookup, hen2, hget2]
  have h2 : getSecret env ⟨mode2, secretCache.set c.cache t name v⟩ t2 name =
      ⟨.ok v, ⟨mode2, secretCache.set c.cache t name v⟩, 0, []⟩ := by
    simp [getSecret, hname, hcl2]
  rw [h1]
  exact ⟨rfl, rfl, by rw [show (⟨.ok v, ⟨mode2, secretCache.set c.cache t name v⟩, 1,
    calls⟩ : ResolveResult).client = ⟨mode2, secretCache.set c.cache t name v⟩ from rfl, h2],
    by rw [show (⟨.ok v, ⟨mode2, secretCache.set c.cache t name v⟩, 1,
      calls⟩ : ResolveResult).client = ⟨mode2, secretCache.set c.cache t name v⟩ from rfl, h2]⟩

/-- Witness for C1: a legacy client with TTL 60 resolving "db" at time
0 and again at time 30. -/
theorem claim_C1_cache_hit_within_ttl_witness :
    (getSecret envHit ⟨.legacy "sess", newSecretCache 60⟩ 0 "db").result = .ok "p4ss" ∧
    (getSecret envHit ⟨.legacy "sess", newSecretCache 60⟩ 0 "db").fetches = 1 ∧
    (getSecret envHit (getSecret envHit ⟨.legacy "sess", newSecretCache 60⟩ 0 "db").client
      30 "db").result = .ok "p4ss" ∧
    (getSecret envHit (getSecret envHit ⟨.legacy "sess", newSecretCache 60⟩ 0 "db").client
      30 "db").fetches = 0 :=
  claim_C1_cache_hit_within_ttl envHit ⟨.legacy "sess", newSecretCache 60⟩ 0 30 "db" "p4ss"
    (.legacy "sess") [.cli (.getItem "db")] (by decide) rfl rfl rfl (by decide) (by decide)

/-- Claim C4: a cached entry is never returned once the read time is
strictly past its expiry: the read is a miss even before the background
sweep has removed the entry, and a resolution at such a time invokes a
fresh upstream fetch. -/
theorem claim_C4_lazy_expiry (env : Env) (c : Client) (t2 : Int) (name : String)
    (item : CacheItem)
    (hname : name ≠ "")
    (hit : c.cache.items name = some item)
    (hexp : item.expiresAt < t2) :
    secretCache.get c.cache t2 name = none ∧
    (getSecret env c t2 name).fetches = 1 := by
  have hget : secretCache.get c.cache t2 name = none := by
    simp [secretCache.get, hit, hexp]
  refine ⟨hget, ?_⟩
  have hcl : cacheLookup c t2 name = none := by
    unfold cacheLookup
    cases hb : c.cache.enabled <;> simp [hget]
  rcases hf : fetchSecret env c.mode t2 name with ⟨res, m2, cs⟩
  cases res <;> simp [getSecret, hname, hcl, hf]

/-- Witness for C4: an entry that expired at time 10 read at time 11. -/
theorem claim_C4_lazy_expiry_witness :
    secretCache.get cacheWithDb 11 "db" = none ∧
    (getSecret envDefault ⟨.legacy "sess", cacheWithDb⟩ 11 "db").fetches = 1 :=
  claim_C4_lazy_expiry envDefault ⟨.legacy "sess", cacheWithDb⟩ 11 "db" ⟨"old", 10⟩
    (by decide) rfl (by decide)

/-- Counterexample to C6 as stated: a legacy-mode client whose CLI
lookup fails falls back to the HTTP API path inside the same
resolution — the cipher-list call with the session token as bearer
appears in the upstream-call trace, so legacy mode does not use only
the CLI variant. -/
theorem claim_C6_counterexample :
    CallKind.apiList "sess" ∈ (fetchSecret envDefault (.legacy "sess") 0 "db").calls := by
  decide

/-- Claim C6 amended: the mode is fixed at construction and API mode
never executes a CLI command; legacy mode always tries the CLI first
and, exactly when the CLI attempt fails, falls back to the HTTP API
path within the same resolution, using the session token as bearer. -/
theorem claim_C6_mode_dispatch (env : Env) (am : AuthState) (now : Int) (name tk : String) :
    (∀ cmd : CliCmd, CallKind.cli cmd ∉ (fetchSecret env (.api am) now name).calls) ∧
    (∀ v, (fetchSecretViaCLI env name).1 = .ok v →
      (fetchSecret env (.legacy tk) now name).result = .ok v ∧
      ∀ b, CallKind.apiList b ∉ (fetchSecret env (.legacy tk) now name).calls) ∧
    (∀ e, (fetchSecretViaCLI env name).1 = .error e →
      (fetchSecret env (.legacy tk) now name).result = apiLookup env tk name ∧
      CallKind.apiList tk ∈ (fetchSecret env (.legacy tk) now name).calls) := by
  refine ⟨?_, ?_, ?_⟩
  · intro cmd hmem
    rcases hg : getAccessToken env am now with ⟨res, am2, calls⟩
    have hcases := getAccessToken_calls_cases env am now
    rw [hg] at hcases
    cases res with
    | error e =>
      simp only [fetchSecret, hg] at hmem
      rcases hcases with h | h <;> subst h <;> simp at hmem
    | ok tok =>
      simp only [fetchSecret, hg] at hmem
      rcases hcases with h | h <;> subst h <;> simp at hmem
  · intro v hok
    rcases hcli : fetchSecretViaCLI env name with ⟨res, cmds⟩
    rw [hcli] at hok
    simp only at hok
    subst hok
    refine ⟨by simp [fetchSecret, hcli], ?_⟩
    intro b hmem
    simp only [fetchSecret, hcli] at hmem
    simp [List.mem_map] at hmem
  · intro e herr
    rcases hcli : fetchSecretViaCLI env name with ⟨res, cmds⟩
    rw [hcli] at herr
    simp only at herr
    subst herr
    refine ⟨by simp [fetchSecret, hcli], ?_⟩
    simp [fetchSecret, hcli]

/-- Witness for C6 amended at a legacy client whose CLI lookup
succeeds: the CLI value is returned and no API-list call is issued. -/
theorem claim_C6_mode_dispatch_witness :
    (fetchSecret envHit (.legacy "sess") 0 "db").result = .ok "p4ss" ∧
    CallKind.apiList "sess" ∉ (fetchSecret envHit (.legacy "sess") 0 "db").calls := by
  have h := (claim_C6_mode_dispatch envHit ⟨"", 0⟩ 0 "db" "sess").2.1 "p4ss" rfl
  exact ⟨h.1, h.2 "sess"⟩

/-- Counterexample to C7 as stated: with a first login attempt failing
for a non-rate-limit reason and a second attempt succeeding, the
bootstrap performs a second attempt (after a 20-second backoff) and
succeeds — the non-rate-limit failure was retried. -/
theorem claim_C7_counterexample :
    bootstrapLogin badThenOk = (none, 2, [20]) := by decide

/-- Claim C7 amended: the bootstrap login retries any failed attempt,
rate-limited or not, up to 3 attempts total, sleeping
`attempt * attempt * 5` seconds before each retry, and reports the last
attempt's error when all three fail; within one resolution the core
never repeats an upstream call (no internal retry in the fetch path). -/
theorem claim_C7_retry_policy :
    (∀ outcome : Nat → LoginOutcome,
      (outcome 1 = .success → bootstrapLogin outcome = (none, 1, [])) ∧
      (outcome 1 ≠ .success → outcome 2 = .success →
        bootstrapLogin outcome = (none, 2, [20])) ∧
      (outcome 1 ≠ .success → outcome 2 ≠ .success → outcome 3 = .success →
        bootstrapLogin outcome = (none, 3, [20, 45])) ∧
      (outcome 1 ≠ .success → outcome 2 ≠ .success → outcome 3 ≠ .success →
        bootstrapLogin outcome = (attemptError (outcome 3), 3, [20, 45]))) ∧
    (∀ (env : Env) (mode : AuthMode) (now : Int) (name : String),
      ((fetchSecret env mode now name).calls).Nodup) := by
  constructor
  · intro outcome
    refine ⟨?_, ?_, ?_, ?_⟩
    · intro h1
      simp [bootstrapLogin, loginLoopAux, h1]
    · intro h1 h2
      rcases ho1 : outcome 1 with _ | m1 | m1
      · exact absurd ho1 h1
      · simp [bootstrapLogin, loginLoopAux, ho1, h2, attemptError]
      · simp [bootstrapLogin, loginLoopAux, ho1, h2, attemptError]
    · intro h1 h2 h3
      rcases ho1 : outcome 1 with _ | m1 | m1
      · exact absurd ho1 h1
      · rcases ho2 : outcome 2 with _ | m2 | m2
        · exact absurd ho2 h2
        · simp [bootstrapLogin, loginLoopAux, ho1, ho2, h3, attemptError]
        · simp [bootstrapLogin, loginLoopAux, ho1, ho2, h3, attemptError]
      · rcases ho2 : outcome 2 with _ | m2 | m2
        · exact absurd ho2 h2
        · simp [bootstrapLogin, loginLoopAux, ho1, ho2, h3, attemptError]
        · simp [bootstrapLogin, loginLoopAux, ho1, ho2, h3, attemptError]
    · intro h1 h2 h3
      rcases ho1 : outcome 1 with _ | m1 | m1
      · exact absurd ho1 h1
      all_goals rcases ho2 : outcome 2 with _ | m2 | m2
      · exact absurd ho2 h2
      · rcases ho3 : outcome 3 with _ | m3 | m3
        · exact absurd ho3 h3
        · simp [bootstrapLogin, loginLoopAux, ho1, ho2, ho3, attemptError]
        · simp [bootstrapLogin, loginLoopAux, ho1, ho2, ho3, attemptError]
      · rcases ho3 : outcome 3 with _ | m3 | m3
        · exact absurd ho3 h3
        · simp [bootstrapLogin, loginLoopAux, ho1, ho2, ho3, attemptError]
        · simp [bootstrapLogin, loginLoopAux, ho1, ho2, ho3, attemptError]
      · exact absurd ho2 h2
      · rcases ho3 : outcome 3 with _ | m3 | m3
        · exact absurd ho3 h3
        · simp [bootstrapLogin, loginLoopAux, ho1, ho2, ho3, attemptError]
        · simp [bootstrapLogin, loginLoopAux, ho1, ho2, ho3, attemptError]
      · rcases ho3 : outcome 3 with _ | m3 | m3
        · exact absurd ho3 h3
        · simp [bootstrapLogin, loginLoopAux, ho1, ho2, ho3, attemptError]
        · simp [bootstrapLogin, loginLoopAux, ho1, ho2, ho3, attemptError]
  · intro env mode now name
    cases mode with
    | legacy tk =>
      rcases hcli : fetchSecretViaCLI env name with ⟨res, cmds⟩
      have hc := fetchSecretViaCLI_cmds_cases env name
      rw [hcli] at hc
      cases res with
      | ok v =>
        simp only [fetchSecret, hcli]
        rcases hc with h | h | h <;> subst h <;> simp
      | error e =>
        simp only [fetchSecret, hcli]
        rcases hc with h | h | h <;> subst h <;> simp
    | api am =>
      rcases hg : getAccessToken env am now with ⟨res, am2, calls⟩
      have hc := getAccessToken_calls_cases env am now
      rw [hg] at hc
      cases res with
      | ok tok =>
        simp only [fetchSecret, hg]
        rcases hc with h | h <;> subst h <;> simp
      | error e =>
        simp only [fetchSecret, hg]
        rcases hc with h | h <;> subst h <;> simp

/-- Witness for C7 amended: three straight rate-limited attempts give
the rate-limit error after backoffs of 20 and 45 seconds. -/
theorem claim_C7_retry_policy_witness :
    bootstrapLogin (fun _ => .rateLimited "Rate limit exceeded") =
      (attemptError ((fun _ => LoginOutcome.rateLimited "Rate limit exceeded") 3), 3, [20, 45]) :=
  ((claim_C7_retry_policy.1 (fun _ => .rateLimited "Rate limit exceeded")).2.2.2
    (by decide) (by decide) (by decide))

/-- Counterexample to C9 as stated: the token refresh performs its
upstream HTTP exchange while the AuthManager write lock is held — the
lock is taken at entry and released only by the deferred unlock, after
the network call. -/
theorem claim_C9_counterexample :
    netUnderLock (refreshAccessTokenEvents false true) false = true := by decide

/-- Claim C9 amended: `refreshAccessToken` holds the write lock across
the upstream exchange (whether the exchange succeeds or fails) — which
is what serializes concurrent refreshes; when the double-check finds a
still-valid token no network call happens at all, and no SecretCache
operation ever performs a network call under its lock. -/
theorem claim_C9_lock_across_refresh :
    (∀ b : Bool, netUnderLock (refreshAccessTokenEvents false b) false = true) ∧
    (∀ b : Bool, LockEvent.netCall ∉ refreshAccessTokenEvents true b) ∧
    LockEvent.netCall ∉ cacheGetEvents ∧
    LockEvent.netCall ∉ cacheSetEvents ∧
    LockEvent.netCall ∉ cacheClearEvents :=
  ⟨fun b => by cases b <;> decide, fun b => by cases b <;> decide,
    by decide, by decide, by decide⟩

/-- Claim C10: with an empty construction token, `NewClient` adopts the
whitespace-trimmed contents of `/tmp/bw_session` when the file is
readable; when it is absent or unreadable the token stays empty; a
non-empty construction token is never replaced; in every case
construction reports no error (`NewClient` is total). -/
theorem claim_C10_session_file_adoption (token : String) (sessionFile : Option String) :
    (token = "" → ∀ contents, sessionFile = some contents →
      newClientToken token sessionFile = trimSpace contents) ∧
    (token = "" → sessionFile = none → newClientToken token sessionFile = "") ∧
    (token ≠ "" → newClientToken token sessionFile = token) := by
  refine ⟨?_, ?_, ?_⟩
  · intro h contents hf
    subst h
    subst hf
    simp [newClientToken]
  · intro h hf
    subst h
    subst hf
    simp [newClientToken]
  · intro h
    simp [newClientToken, h]

/-- Witness for C10: an empty token with a readable session file whose
contents carry surrounding whitespace. -/
theorem claim_C10_session_file_adoption_witness :
    newClientToken "" (some " tok\n") = trimSpace " tok\n" :=
  (claim_C10_session_file_adoption "" (some " tok\n")).1 rfl " tok\n" rfl

end Vaultwarden
